import Mathlib

/-!
Verification of the afero-cephfs adapter layer (a Go library adapting a
CephFS remote-filesystem client to the afero virtual-filesystem interface).

The development shallowly embeds the adapter's pure logic:
* `Err` models Go `error` values (with wrapping via `fmt.Errorf("...: %w", e)`),
* `convertErr` embeds the error translator,
* `toFileMode` embeds the raw-mode-to-`os.FileMode` translator,
* a finite rose tree `Node` models the remote filesystem state for the
  recursive-delete algorithm `removeAll`,
* a stream-of-results list models the remote directory cursor for the
  directory-enumeration functions `File.Readdir` / `File.Readdirnames`.

The remote client is a black box that may fail arbitrarily; where a claim
is about failure handling, the remote's behaviour is supplied as an explicit
oracle argument (a function or a result value), so theorems quantify over
every possible remote behaviour.
-/

/-- Model of Go `error` values as used by the adapter.  Each constructor is
one of the distinguished error identities the code compares against, plus
`other` for arbitrary remote errors, `wrap` for `fmt.Errorf("<pre>%w", e)`
and `close2` for the two-error close aggregate
`fmt.Errorf("failed to close file for reasons; %w; %w", e1, e2)`. -/
inductive Err where
  | cephNotExist
  | osNotExist
  | osExist
  | eof
  | fileNil
  | dirNil
  | notImplemented
  | isDir
  | notDir
  | notEmpty
  | outOfFuel
  | other (msg : String)
  | wrap (pre : String) (inner : Err)
  | close2 (e1 e2 : Err)
deriving DecidableEq, Repr

/-- `err.Error()`: the textual representation of an error.  A wrapped error
produced by `fmt.Errorf("<pre>%w", e)` renders as the format prefix followed
by the inner error's text. -/
def Err.msg : Err → String
  | .cephNotExist => "file does not exist"
  | .osNotExist => "file does not exist"
  | .osExist => "file already exists"
  | .eof => "EOF"
  | .fileNil => "cephfs file is nil, is this a directory?"
  | .dirNil => "cephfs dir is nil, is this a file?"
  | .notImplemented => "not implemented"
  | .isDir => "is a directory"
  | .notDir => "not a directory"
  | .notEmpty => "directory not empty"
  | .outOfFuel => "out of fuel"
  | .other m => m
  | .wrap pre inner => pre ++ inner.msg
  | .close2 a b => "failed to close file for reasons; " ++ a.msg ++ "; " ++ b.msg

/-- Go `errors.Is e target`: walks the unwrap chain (both branches for the
two-`%w` aggregate) looking for `target`. -/
def errIs : Err → Err → Bool
  | e, target =>
    (e = target : Bool) ||
    (match e with
     | .wrap _ inner => errIs inner target
     | .close2 a b => errIs a target || errIs b target
     | _ => false)

/-- Whether the first character list is an initial segment of the second. -/
def isPrefixChars : List Char → List Char → Bool
  | [], _ => true
  | _ :: _, [] => false
  | a :: as, b :: bs => a == b && isPrefixChars as bs

/-- Whether `needle` occurs contiguously inside `hay`. -/
def containsSub (needle : List Char) : List Char → Bool
  | [] => isPrefixChars needle []
  | c :: rest => isPrefixChars needle (c :: rest) || containsSub needle rest

/-- Go `strings.Contains s sub`. -/
def strContains (s sub : String) : Bool :=
  containsSub sub.data s.data

/-- `convertErr` from the source: nil stays nil; an error that
`errors.Is`-matches the ceph client's `ErrNotExist` becomes `os.ErrNotExist`;
otherwise an error whose text contains `"ret=-17"` becomes `os.ErrExist`;
otherwise the error is returned unchanged. -/
def convertErr : Option Err → Option Err
  | none => none
  | some e =>
    if errIs e .cephNotExist then some .osNotExist
    else if strContains (Err.msg e) "ret=-17" then some .osExist
    else some e

/-! ### Mode translator

Constants are the Linux `syscall.S_IF*` values and Go's `os.FileMode` bit
flags, written as numerals. -/

def sIFMT : Nat := 0xf000
def sIFBLK : Nat := 0x6000
def sIFCHR : Nat := 0x2000
def sIFDIR : Nat := 0x4000
def sIFIFO : Nat := 0x1000
def sIFLNK : Nat := 0xa000
def sIFREG : Nat := 0x8000
def sIFSOCK : Nat := 0xc000
def sISGID : Nat := 0x400
def sISUID : Nat := 0x800
def sISVTX : Nat := 0x200

def modeDir : Nat := 2 ^ 31
def modeSymlink : Nat := 2 ^ 27
def modeDevice : Nat := 2 ^ 26
def modeNamedPipe : Nat := 2 ^ 25
def modeSocket : Nat := 2 ^ 24
def modeSetuid : Nat := 2 ^ 23
def modeSetgid : Nat := 2 ^ 22
def modeCharDevice : Nat := 2 ^ 21
def modeSticky : Nat := 2 ^ 20

/-- `toFileMode` from the source: keeps the permission bits `mode & 0777`,
dispatches on the POSIX type nibble `mode & S_IFMT` (block device, character
device, directory, fifo, symlink, regular, socket), and independently ORs in
setgid / setuid / sticky flags. -/
def toFileMode (mode : Nat) : Nat :=
  let fm := mode &&& 0o777
  let fm :=
    if mode &&& sIFMT = sIFBLK then fm ||| modeDevice
    else if mode &&& sIFMT = sIFCHR then fm ||| modeDevice ||| modeCharDevice
    else if mode &&& sIFMT = sIFDIR then fm ||| modeDir
    else if mode &&& sIFMT = sIFIFO then fm ||| modeNamedPipe
    else if mode &&& sIFMT = sIFLNK then fm ||| modeSymlink
    else if mode &&& sIFMT = sIFREG then fm
    else if mode &&& sIFMT = sIFSOCK then fm ||| modeSocket
    else fm
  let fm := if mode &&& sISGID ≠ 0 then fm ||| modeSetgid else fm
  let fm := if mode &&& sISUID ≠ 0 then fm ||| modeSetuid else fm
  let fm := if mode &&& sISVTX ≠ 0 then fm ||| modeSticky else fm
  fm

/-- The union of every type flag `toFileMode` can emit. -/
def typeFlagMask : Nat :=
  modeDir ||| modeSymlink ||| modeDevice ||| modeNamedPipe ||| modeSocket ||| modeCharDevice

/-! Bit-level helper lemmas, proved by `testBit` extensionality. -/

theorem lorLandDistrib (a b c : Nat) : (a ||| b) &&& c = (a &&& c) ||| (b &&& c) := by
  apply Nat.eq_of_testBit_eq
  intro i
  simp [Nat.testBit_land, Nat.testBit_lor, Bool.and_or_distrib_right]

theorem landAssoc (a b c : Nat) : (a &&& b) &&& c = a &&& (b &&& c) := by
  apply Nat.eq_of_testBit_eq
  intro i
  simp [Nat.testBit_land, Bool.and_assoc]

theorem landZero (a : Nat) : a &&& 0 = 0 := by
  apply Nat.eq_of_testBit_eq
  intro i
  simp [Nat.testBit_land]

theorem landChainZero (a c mask : Nat) (h : c &&& mask = 0) : (a &&& c) &&& mask = 0 := by
  rw [landAssoc, h, landZero]

theorem landMaskIdem (a c : Nat) : (a &&& c) &&& c = a &&& c := by
  apply Nat.eq_of_testBit_eq
  intro i
  simp [Nat.testBit_land, Bool.and_assoc]

theorem lorZero (a : Nat) : a ||| 0 = a := by
  apply Nat.eq_of_testBit_eq
  intro i
  simp [Nat.testBit_lor]

theorem zeroLor (a : Nat) : 0 ||| a = a := by
  apply Nat.eq_of_testBit_eq
  intro i
  simp [Nat.testBit_lor]

/-- The type-flag contribution of `toFileMode` as a function of the type
nibble `t = mode &&& sIFMT` (proof-side normal form, not a source
function). -/
def typePartOf (t : Nat) : Nat :=
  if t = sIFBLK then modeDevice
  else if t = sIFCHR then modeDevice ||| modeCharDevice
  else if t = sIFDIR then modeDir
  else if t = sIFIFO then modeNamedPipe
  else if t = sIFLNK then modeSymlink
  else if t = sIFREG then 0
  else if t = sIFSOCK then modeSocket
  else 0

/-- Normal form of `toFileMode`: permission bits, the type flags determined
by the type nibble, and the three special flags, all OR-ed together. -/
theorem toFileMode_eq (m : Nat) : toFileMode m =
    (((m &&& 0o777) ||| typePartOf (m &&& sIFMT))
      ||| (if m &&& sISGID ≠ 0 then modeSetgid else 0))
      ||| ((if m &&& sISUID ≠ 0 then modeSetuid else 0)
      ||| (if m &&& sISVTX ≠ 0 then modeSticky else 0)) := by
  unfold toFileMode typePartOf
  split_ifs <;> simp [Nat.lor_assoc]

theorem typePartOf_land_type (t : Nat) : typePartOf t &&& typeFlagMask = typePartOf t := by
  unfold typePartOf; split_ifs <;> decide

theorem typePartOf_land_perm (t : Nat) : typePartOf t &&& 0o777 = 0 := by
  unfold typePartOf; split_ifs <;> decide

theorem typePartOf_land_setuid (t : Nat) : typePartOf t &&& modeSetuid = 0 := by
  unfold typePartOf; split_ifs <;> decide

theorem typePartOf_land_setgid (t : Nat) : typePartOf t &&& modeSetgid = 0 := by
  unfold typePartOf; split_ifs <;> decide

theorem typePartOf_land_sticky (t : Nat) : typePartOf t &&& modeSticky = 0 := by
  unfold typePartOf; split_ifs <;> decide

theorem typePartOf_reorder (m : Nat) : typePartOf (m &&& sIFMT) =
    (if m &&& sIFMT = sIFDIR then modeDir
     else if m &&& sIFMT = sIFCHR then modeDevice ||| modeCharDevice
     else if m &&& sIFMT = sIFBLK then modeDevice
     else if m &&& sIFMT = sIFIFO then modeNamedPipe
     else if m &&& sIFMT = sIFLNK then modeSymlink
     else if m &&& sIFMT = sIFSOCK then modeSocket
     else 0) := by
  unfold typePartOf
  simp only [sIFBLK, sIFCHR, sIFDIR, sIFIFO, sIFLNK, sIFREG, sIFSOCK]
  split_ifs <;> first | rfl | omega

/-- C5: for every 16-bit raw mode value `m`, the permission bits of
`toFileMode m` equal `m &&& 0o777`; the POSIX type nibble maps to exactly one
type flag (directory, char-device, block-device, fifo, symlink, socket each
yield their flag; regular and unrecognized nibbles yield none); and the
setuid / setgid / sticky output flags are set iff the corresponding input
bits are set, independently of the type nibble. -/
theorem toFileMode_mode_translator (m : Nat) (_hm : m < 2 ^ 16) :
    toFileMode m &&& 0o777 = m &&& 0o777 ∧
    toFileMode m &&& typeFlagMask =
      (if m &&& sIFMT = sIFDIR then modeDir
       else if m &&& sIFMT = sIFCHR then modeDevice ||| modeCharDevice
       else if m &&& sIFMT = sIFBLK then modeDevice
       else if m &&& sIFMT = sIFIFO then modeNamedPipe
       else if m &&& sIFMT = sIFLNK then modeSymlink
       else if m &&& sIFMT = sIFSOCK then modeSocket
       else 0) ∧
    ((toFileMode m &&& modeSetuid ≠ 0) ↔ m &&& sISUID ≠ 0) ∧
    ((toFileMode m &&& modeSetgid ≠ 0) ↔ m &&& sISGID ≠ 0) ∧
    ((toFileMode m &&& modeSticky ≠ 0) ↔ m &&& sISVTX ≠ 0) := by
  refine ⟨?_, ?_, ?_, ?_, ?_⟩
  · rw [toFileMode_eq]
    simp only [lorLandDistrib]
    rw [landMaskIdem, typePartOf_land_perm]
    have hg : (if m &&& sISGID ≠ 0 then modeSetgid else 0) &&& 0o777 = 0 := by
      split_ifs <;> decide
    have hu : (if m &&& sISUID ≠ 0 then modeSetuid else 0) &&& 0o777 = 0 := by
      split_ifs <;> decide
    have hv : (if m &&& sISVTX ≠ 0 then modeSticky else 0) &&& 0o777 = 0 := by
      split_ifs <;> decide
    rw [hg, hu, hv]
    simp
  · rw [toFileMode_eq]
    simp only [lorLandDistrib]
    have hg : (if m &&& sISGID ≠ 0 then modeSetgid else 0) &&& typeFlagMask = 0 := by
      split_ifs <;> decide
    have hu : (if m &&& sISUID ≠ 0 then modeSetuid else 0) &&& typeFlagMask = 0 := by
      split_ifs <;> decide
    have hv : (if m &&& sISVTX ≠ 0 then modeSticky else 0) &&& typeFlagMask = 0 := by
      split_ifs <;> decide
    rw [landChainZero _ _ _ (by decide), typePartOf_land_type, hg, hu, hv]
    simp only [lorZero, zeroLor]
    exact typePartOf_reorder m
  · have key : toFileMode m &&& modeSetuid =
        (if m &&& sISUID ≠ 0 then modeSetuid else 0) := by
      rw [toFileMode_eq]
      simp only [lorLandDistrib]
      have hg : (if m &&& sISGID ≠ 0 then modeSetgid else 0) &&& modeSetuid = 0 := by
        split_ifs <;> decide
      have hu : (if m &&& sISUID ≠ 0 then modeSetuid else 0) &&& modeSetuid =
          (if m &&& sISUID ≠ 0 then modeSetuid else 0) := by
        split_ifs <;> decide
      have hv : (if m &&& sISVTX ≠ 0 then modeSticky else 0) &&& modeSetuid = 0 := by
        split_ifs <;> decide
      rw [landChainZero _ _ _ (by decide), typePartOf_land_setuid, hg, hu, hv]
      simp
    rw [key]
    split_ifs with h
    · exact iff_of_true (by decide) h
    · exact iff_of_false (by simp) h
  · have key : toFileMode m &&& modeSetgid =
        (if m &&& sISGID ≠ 0 then modeSetgid else 0) := by
      rw [toFileMode_eq]
      simp only [lorLandDistrib]
      have hg : (if m &&& sISGID ≠ 0 then modeSetgid else 0) &&& modeSetgid =
          (if m &&& sISGID ≠ 0 then modeSetgid else 0) := by
        split_ifs <;> decide
      have hu : (if m &&& sISUID ≠ 0 then modeSetuid else 0) &&& modeSetgid = 0 := by
        split_ifs <;> decide
      have hv : (if m &&& sISVTX ≠ 0 then modeSticky else 0) &&& modeSetgid = 0 := by
        split_ifs <;> decide
      rw [landChainZero _ _ _ (by decide), typePartOf_land_setgid, hg, hu, hv]
      simp
    rw [key]
    split_ifs with h
    · exact iff_of_true (by decide) h
    · exact iff_of_false (by simp) h
  · have key : toFileMode m &&& modeSticky =
        (if m &&& sISVTX ≠ 0 then modeSticky else 0) := by
      rw [toFileMode_eq]
      simp only [lorLandDistrib]
      have hg : (if m &&& sISGID ≠ 0 then modeSetgid else 0) &&& modeSticky = 0 := by
        split_ifs <;> decide
      have hu : (if m &&& sISUID ≠ 0 then modeSetuid else 0) &&& modeSticky = 0 := by
        split_ifs <;> decide
      have hv : (if m &&& sISVTX ≠ 0 then modeSticky else 0) &&& modeSticky =
          (if m &&& sISVTX ≠ 0 then modeSticky else 0) := by
        split_ifs <;> decide
      rw [landChainZero _ _ _ (by decide), typePartOf_land_sticky, hg, hu, hv]
      simp
    rw [key]
    split_ifs with h
    · exact iff_of_true (by decide) h
    · exact iff_of_false (by simp) h

/-- Witness for C5 at the concrete raw mode `0x47ed`
(directory nibble, setuid+setgid+sticky set, permissions `0o755`). -/
theorem toFileMode_mode_translator_witness :
    toFileMode 0x47ed &&& 0o777 = 0x47ed &&& 0o777 ∧
    toFileMode 0x47ed &&& typeFlagMask =
      (if 0x47ed &&& sIFMT = sIFDIR then modeDir
       else if 0x47ed &&& sIFMT = sIFCHR then modeDevice ||| modeCharDevice
       else if 0x47ed &&& sIFMT = sIFBLK then modeDevice
       else if 0x47ed &&& sIFMT = sIFIFO then modeNamedPipe
       else if 0x47ed &&& sIFMT = sIFLNK then modeSymlink
       else if 0x47ed &&& sIFMT = sIFSOCK then modeSocket
       else 0) ∧
    ((toFileMode 0x47ed &&& modeSetuid ≠ 0) ↔ 0x47ed &&& sISUID ≠ 0) ∧
    ((toFileMode 0x47ed &&& modeSetgid ≠ 0) ↔ 0x47ed &&& sISGID ≠ 0) ∧
    ((toFileMode 0x47ed &&& modeSticky ≠ 0) ↔ 0x47ed &&& sISVTX ≠ 0) :=
  toFileMode_mode_translator 0x47ed (by decide)

/-! ### Entry/Info adapter and handle adapter -/

/-- The fields of the remote extended-stat structure the adapter reads. -/
structure CephStatx where
  mode : Nat
  size : Nat
deriving DecidableEq, Repr

/-- `FileInfo` from the source: a raw stat plus the logical path. -/
structure FileInfo where
  stat : CephStatx
  path : String
deriving DecidableEq, Repr

/-- Go `filepath.Base`: strip trailing slashes, then keep everything after
the last remaining slash; `""` gives `"."`, an all-slash path gives `"/"`. -/
def filepathBase (p : String) : String :=
  if p = "" then "."
  else if p.data.all (fun c => c == '/') then "/"
  else String.mk ((p.data.reverse.dropWhile (fun c => c == '/')).takeWhile
      (fun c => !(c == '/'))).reverse

/-- `FileInfo.Name`: the base name of the stored path. -/
def FileInfo.Name (info : FileInfo) : String := filepathBase info.path

/-- `FileInfo.Mode`: the translated mode bits. -/
def FileInfo.Mode (info : FileInfo) : Nat := toFileMode info.stat.mode

/-- `FileInfo.IsDir`: Go `FileMode.IsDir`, the directory bit of the mode. -/
def FileInfo.IsDir (info : FileInfo) : Bool := info.Mode &&& modeDir != 0

/-- The remote file capability of a handle.  Closing it is a remote call
whose outcome (`closeErr`) the remote black box determines. -/
structure FileCap where
  closeErr : Option Err := none

/-- A single result of the remote single-entry `ReadDirPlus` primitive. -/
structure DirEntryPlus where
  name : String
  stat : CephStatx
deriving DecidableEq, Repr

/-- The remote directory capability of a handle: the forward-only cursor is
modelled as the list of results successive `ReadDirPlus` calls would yield
(exhaustion once the list ends), plus the outcome of closing it. -/
structure DirCap where
  stream : List (Except Err DirEntryPlus)
  closeErr : Option Err := none

/-- `File` from the source: logical path plus the optional file and
directory capabilities. -/
structure File where
  path : String
  file : Option FileCap
  dir : Option DirCap

/-- `File.Close` from the source: collects the failure of closing each
populated capability into a slice; two failures become the combined
`close2` error over `errs[0]` and `errs[1]`, one failure is returned as is,
none yields nil. -/
def File.Close (f : File) : Option Err :=
  let errs : List Err :=
    (match f.file with
     | some fc =>
       match fc.closeErr with
       | some e => [e]
       | none => []
     | none => []) ++
    (match f.dir with
     | some dc =>
       match dc.closeErr with
       | some e => [e]
       | none => []
     | none => [])
  match errs with
  | [] => none
  | [e] => some e
  | e1 :: e2 :: _ => some (.close2 e1 e2)

/-- Model of Go `[]byte(s)`. -/
def strBytes (s : String) : List Nat := s.data.map Char.toNat

/-- `File.Read`: nil-guard, then delegate to the remote read (supplied as an
oracle so theorems range over every remote behaviour). -/
def File.Read (f : File) (remote : FileCap → Nat × Option Err) : Nat × Option Err :=
  match f.file with
  | none => (0, some .fileNil)
  | some fc => remote fc

/-- `File.ReadAt`: nil-guard, then delegate. -/
def File.ReadAt (f : File) (remote : FileCap → Int → Nat × Option Err)
    (off : Int) : Nat × Option Err :=
  match f.file with
  | none => (0, some .fileNil)
  | some fc => remote fc off

/-- `File.Write`: nil-guard, then delegate. -/
def File.Write (f : File) (remote : FileCap → List Nat → Nat × Option Err)
    (buf : List Nat) : Nat × Option Err :=
  match f.file with
  | none => (0, some .fileNil)
  | some fc => remote fc buf

/-- `File.WriteAt`: nil-guard, then delegate. -/
def File.WriteAt (f : File) (remote : FileCap → List Nat → Int → Nat × Option Err)
    (buf : List Nat) (off : Int) : Nat × Option Err :=
  match f.file with
  | none => (0, some .fileNil)
  | some fc => remote fc buf off

/-- `File.Seek`: nil-guard, then delegate. -/
def File.Seek (f : File) (remote : FileCap → Int → Int → Int × Option Err)
    (off : Int) (whence : Int) : Int × Option Err :=
  match f.file with
  | none => (0, some .fileNil)
  | some fc => remote fc off whence

/-- `File.Stat`: nil-guard, then `Fstatx` and wrap into a `FileInfo` for the
handle's own path. -/
def File.Stat (f : File) (remote : FileCap → Except Err CephStatx) : Except Err FileInfo :=
  match f.file with
  | none => .error .fileNil
  | some fc =>
    match remote fc with
    | .error e => .error e
    | .ok st => .ok ⟨st, f.path⟩

/-- `File.Sync`: nil-guard, then delegate. -/
def File.Sync (f : File) (remote : FileCap → Option Err) : Option Err :=
  match f.file with
  | none => some .fileNil
  | some fc => remote fc

/-- `File.Truncate`: nil-guard, then delegate. -/
def File.Truncate (f : File) (remote : FileCap → Int → Option Err)
    (size : Int) : Option Err :=
  match f.file with
  | none => some .fileNil
  | some fc => remote fc size

/-- `File.WriteString`: nil-guard, then delegate to `File.Write` on the
string's bytes. -/
def File.WriteString (f : File) (remote : FileCap → List Nat → Nat × Option Err)
    (s : String) : Nat × Option Err :=
  match f.file with
  | none => (0, some .fileNil)
  | some _ => File.Write f remote (strBytes s)

/-! ### Directory enumeration (current adapter variant) -/

/-- The `FileInfo` the `Readdir` loop builds for one surviving entry: the
entry's stat and the concatenated child path. -/
def mkInfo (path : String) (de : DirEntryPlus) : FileInfo :=
  ⟨de.stat, path ++ "/" ++ de.name⟩

/-- The loop of `File.Readdir` (source lines 420-449): repeatedly take the
next `ReadDirPlus` result; an error aborts with the list built so far and a
wrapped error; a nil entry ends the stream (`io.EOF` when a positive bound
was not yet reached); `"."` and `".."` are skipped before the `FileInfo`
is built and do not decrement the bound. -/
def readdirLoop (path : String) : List (Except Err DirEntryPlus) → Int →
    List FileInfo → List FileInfo × Option Err
  | stream, count, acc =>
    if count = 0 then (acc, none)
    else
      match stream with
      | [] => if count > 0 then (acc, some .eof) else (acc, none)
      | .error e :: _ => (acc, some (.wrap "cephfs: failed to list file: " e))
      | .ok de :: rest =>
        if de.name ≠ "." ∧ de.name ≠ ".." then
          readdirLoop path rest (if count > 0 then count - 1 else count)
            (acc ++ [mkInfo path de])
        else readdirLoop path rest count acc

/-- `File.Readdir` from the source: requires the directory capability,
normalizes a zero count to unbounded, then runs the loop. -/
def File.Readdir (f : File) (count : Int) : List FileInfo × Option Err :=
  match f.dir with
  | none => ([], some .dirNil)
  | some dc => readdirLoop f.path dc.stream (if count = 0 then -1 else count) []

/-- `File.Readdirnames` from the source: `Readdir`, then map each entry to
its `Name()`, returning the same error. -/
def File.Readdirnames (f : File) (count : Int) : List String × Option Err :=
  ((File.Readdir f count).1.map FileInfo.Name, (File.Readdir f count).2)

/-! ### Remote filesystem state, for the recursive delete

The remote filesystem is modelled as a finite rose tree.  Directory children
have pairwise distinct names (a filesystem invariant), so removing the entry
named `n` is the filter dropping every pair keyed `n`. -/

/-- The dirent type codes (`gocephfs.DType*`). -/
inductive DType where
  | blk
  | chr
  | dir
  | fifo
  | lnk
  | reg
  | sock
  | unknown
deriving DecidableEq, Repr

/-- A node of the remote filesystem: a non-directory leaf carrying the
dirent type a readdir of its parent would report for it, or a directory
with named children. -/
inductive Node where
  | file (dt : DType)
  | dir (children : List (String × Node))

/-- The dirent type a readdir reports for this node. -/
def Node.dtypeOf : Node → DType
  | .file dt => dt
  | .dir _ => .dir

/-- Whether a stat of this node reports a directory (`stat.IsDir()`: the
remote stat of a directory carries the directory type nibble). -/
def Node.isDirNode : Node → Bool
  | .dir _ => true
  | .file _ => false

/-- What the remote single-entry readdir yields: a name and a dirent type. -/
structure DirEntry where
  name : String
  dtype : DType
deriving DecidableEq, Repr

def findEntry : List (String × Node) → String → Option Node
  | [], _ => none
  | (k, v) :: rest, name => if k = name then some v else findEntry rest name

def removeEntry (cs : List (String × Node)) (name : String) : List (String × Node) :=
  cs.filter (fun kv => kv.1 != name)

def replaceEntry (cs : List (String × Node)) (name : String) (n : Node) :
    List (String × Node) :=
  cs.map (fun kv => if kv.1 = name then (kv.1, n) else kv)

/-- Resolve a path (list of segments) to the node it names, if any. -/
def lookup : Node → List String → Option Node
  | n, [] => some n
  | .file _, _ :: _ => none
  | .dir cs, s :: rest =>
    match findEntry cs s with
    | some child => lookup child rest
    | none => none

/-- Effect of a successful remote `Unlink` on the tree: removes a
non-directory leaf; a missing target is the remote not-found error, a
directory target is the `EISDIR`-style error. -/
def unlinkNode : Node → List String → Except Err Node
  | _, [] => .error (.other "empty path")
  | .file _, _ :: _ => .error .cephNotExist
  | .dir cs, [name] =>
    match findEntry cs name with
    | none => .error .cephNotExist
    | some (.dir _) => .error .isDir
    | some (.file _) => .ok (.dir (removeEntry cs name))
  | .dir cs, name :: r :: rs =>
    match findEntry cs name with
    | none => .error .cephNotExist
    | some child =>
      match unlinkNode child (r :: rs) with
      | .error e => .error e
      | .ok child2 => .ok (.dir (replaceEntry cs name child2))

/-- Effect of a successful remote `RemoveDir` on the tree: removes an empty
directory; missing / non-directory / non-empty targets fail. -/
def removeDirNode : Node → List String → Except Err Node
  | _, [] => .error (.other "empty path")
  | .file _, _ :: _ => .error .cephNotExist
  | .dir cs, [name] =>
    match findEntry cs name with
    | none => .error .cephNotExist
    | some (.file _) => .error .notDir
    | some (.dir []) => .ok (.dir (removeEntry cs name))
    | some (.dir (_ :: _)) => .error .notEmpty
  | .dir cs, name :: r :: rs =>
    match findEntry cs name with
    | none => .error .cephNotExist
    | some child =>
      match removeDirNode child (r :: rs) with
      | .error e => .error e
      | .ok child2 => .ok (.dir (replaceEntry cs name child2))

/-- `mount.Statx`: stat by path; a missing target is the ceph client's
not-found error. -/
def statxNode (root : Node) (path : List String) : Except Err Node :=
  match lookup root path with
  | some n => .ok n
  | none => .error .cephNotExist

/-- `Fs.Stat` from the source: maps the ceph client's not-found error onto
`os.ErrNotExist`, passes other errors through. -/
def fsStat (root : Node) (path : List String) : Except Err Node :=
  match statxNode root path with
  | .error e => if errIs e .cephNotExist then .error .osNotExist else .error e
  | .ok n => .ok n

/-- Failure behaviour of the black-box remote client: which unlink / rmdir
calls it makes fail, and with what error.  `none` lets the call act on the
tree. -/
structure Env where
  unlinkFail : List String → Option Err
  rmdirFail : List String → Option Err

/-- `mount.Unlink` under an `Env`: an injected remote failure, or the tree
effect. -/
def mountUnlink (env : Env) (root : Node) (path : List String) : Node × Option Err :=
  match env.unlinkFail path with
  | some e => (root, some e)
  | none =>
    match unlinkNode root path with
    | .error e => (root, some e)
    | .ok r => (r, none)

/-- `Fs.Remove` from the source: `convertErr(mount.Unlink(path))`. -/
def fsRemove (env : Env) (root : Node) (path : List String) : Node × Option Err :=
  ((mountUnlink env root path).1, convertErr (mountUnlink env root path).2)

/-- `mount.RemoveDir` under an `Env`. -/
def mountRemoveDir (env : Env) (root : Node) (path : List String) : Node × Option Err :=
  match env.rmdirFail path with
  | some e => (root, some e)
  | none =>
    match removeDirNode root path with
    | .error e => (root, some e)
    | .ok r => (r, none)

/-- `mount.OpenDir` plus the sequence of entries its cursor will yield: the
`"."` and `".."` pseudo-entries first (as a POSIX readdir yields), then the
children. -/
def openDirEntries (root : Node) (path : List String) : Except Err (List DirEntry) :=
  match lookup root path with
  | none => .error .cephNotExist
  | some (.file _) => .error .notDir
  | some (.dir cs) =>
    .ok (⟨".", .dir⟩ :: ⟨"..", .dir⟩ :: cs.map (fun kv => ⟨kv.1, kv.2.dtypeOf⟩))

def joinPath (path : List String) : String := String.intercalate "/" path

/-- The `forDirItem` iteration of `Fs.RemoveAll` (source lines 215-239):
skip `"."` and `".."`; dispatch on the dirent type — directories recurse
(`self`, the recursion at one fuel step less), symlinks and regular files
are unlinked, and every other type is unlinked by the fallback branch; the
first failing callback aborts, wrapped by `forDirItem`. -/
def processChildren (env : Env) (self : Node → List String → Node × Option Err) :
    Node → List String → List DirEntry → Node × Option Err
  | root, _, [] => (root, none)
  | root, path, de :: rest =>
    if de.name = "." ∨ de.name = ".." then processChildren env self root path rest
    else
      match de.dtype with
      | .dir =>
        match self root (path ++ [de.name]) with
        | (root2, some e) => (root2, some (.wrap "DirEntry callback failed: " e))
        | (root2, none) => processChildren env self root2 path rest
      | .lnk =>
        match mountUnlink env root (path ++ [de.name]) with
        | (root2, some e) =>
          (root2, some (.wrap "DirEntry callback failed: "
            (.wrap ("failed to remove file " ++ joinPath (path ++ [de.name]) ++ ": ") e)))
        | (root2, none) => processChildren env self root2 path rest
      | .reg =>
        match mountUnlink env root (path ++ [de.name]) with
        | (root2, some e) =>
          (root2, some (.wrap "DirEntry callback failed: "
            (.wrap ("failed to remove file " ++ joinPath (path ++ [de.name]) ++ ": ") e)))
        | (root2, none) => processChildren env self root2 path rest
      | _ =>
        match mountUnlink env root (path ++ [de.name]) with
        | (root2, some e) =>
          (root2, some (.wrap "DirEntry callback failed: "
            (.wrap "failed to remove unknown entry: " e)))
        | (root2, none) => processChildren env self root2 path rest

/-- `Fs.RemoveAll` from the source, with a fuel parameter making the Go
recursion (which recurses on child paths) structurally total: stat the
target (success on not-found), remove a plain node directly, otherwise open
the directory, process every child, then remove the emptied directory. -/
def removeAll (env : Env) : Nat → Node → List String → Node × Option Err
  | 0, root, _ => (root, some .outOfFuel)
  | fuel + 1, root, path =>
    match fsStat root path with
    | .error e => if e = .osNotExist then (root, none) else (root, some e)
    | .ok target =>
      if ¬ target.isDirNode then
        match fsRemove env root path with
        | (root2, some e) =>
          (root2, some (.wrap ("RemoveAll failed to remove file at path " ++
            joinPath path ++ ": ") e))
        | (root2, none) => (root2, none)
      else
        match openDirEntries root path with
        | .error e => (root, some (.wrap ("failed to open dir " ++ joinPath path ++ ": ") e))
        | .ok entries =>
          match processChildren env (removeAll env fuel) root path entries with
          | (root2, some e) => (root2, some e)
          | (root2, none) => mountRemoveDir env root2 path

/-! ### Directory enumeration (superseded generic variant `listFromDir`,
kept in the repository as the appended earlier revision of the source
file) -/

/-- The loop of `listFromDir`: no pseudo-entry filtering; every entry goes
through the caller-supplied transform and decrements the bound; a read or
transform error aborts with the list built so far; exhaustion returns the
list with no error. -/
def listFromDirLoop {T : Type} (callback : DirEntry → Except Err T) :
    List (Except Err DirEntry) → Int → List T → List T × Option Err
  | stream, count, acc =>
    if count = 0 then (acc, none)
    else
      match stream with
      | [] => (acc, none)
      | .error e :: _ => (acc, some (.wrap "failed cephfs.ReadDir: " e))
      | .ok de :: rest =>
        match callback de with
        | .error e => (acc, some (.wrap "listFromDir callback failed: " e))
        | .ok item =>
          listFromDirLoop callback rest (if count > 0 then count - 1 else count)
            (acc ++ [item])

/-- `listFromDir`: stat the handle (`statRes` is the is-directory bit of the
result), refuse non-directories, open the directory (`openRes` supplies the
remote stream), normalize a zero count to unbounded, and run the loop. -/
def listFromDir {T : Type} (statRes : Except Err Bool)
    (openRes : Except Err (List (Except Err DirEntry))) (count : Int)
    (callback : DirEntry → Except Err T) : List T × Option Err :=
  match statRes with
  | .error e => ([], some e)
  | .ok isdir =>
    if isdir then
      match openRes with
      | .error e => ([], some (.wrap "failed " e))
      | .ok stream => listFromDirLoop callback stream (if count = 0 then -1 else count) []
    else ([], some (.other "not a directory"))

/-! ### Filesystem adapter wrappers (error routing)

Each wrapper takes the remote call's outcome as an argument and performs
exactly the error handling the source performs on it. -/

/-- The non-nil half of `convertErr` (`convertErr (some e) = some (convertErrE e)`). -/
def convertErrE (e : Err) : Err :=
  if errIs e .cephNotExist then .osNotExist
  else if strContains (Err.msg e) "ret=-17" then .osExist
  else e

/-- `Fs.Create`: on open failure the remote error is returned unchanged. -/
def fsCreate (path : String) (openRes : Except Err FileCap) : Except Err File :=
  match openRes with
  | .error e => .error e
  | .ok c => .ok ⟨path, some c, none⟩

/-- `Fs.Mkdir`: translates the remote error, then wraps it with the path. -/
def fsMkdir (path : String) (res : Option Err) : Option Err :=
  match res with
  | none => none
  | some e => some (.wrap ("failed to create directory " ++ path ++ ": ") (convertErrE e))

/-- `Fs.MkdirAll`: returns the remote result as is. -/
def fsMkdirAll (res : Option Err) : Option Err := res

/-- `Fs.Rename`: returns the remote result as is. -/
def fsRename (res : Option Err) : Option Err := res

/-- `Fs.Chmod`: returns the remote result as is. -/
def fsChmod (res : Option Err) : Option Err := res

/-- `Fs.Chown`: returns the remote result as is. -/
def fsChown (res : Option Err) : Option Err := res

/-- `Fs.Remove` on an arbitrary remote outcome: `convertErr` applied to it. -/
def fsRemoveO (res : Option Err) : Option Err := convertErr res

/-- `Fs.OpenFile`: a failing open is translated; a failing `Fstatx` is
returned unchanged; a directory target (per the translated mode) also opens
the directory capability, translating that failure. -/
def fsOpenFile (path : String) (openRes : Except Err FileCap)
    (statRes : Except Err CephStatx) (openDirRes : Except Err DirCap) : Except Err File :=
  match openRes with
  | .error e => .error (convertErrE e)
  | .ok cfile =>
    match statRes with
    | .error e => .error e
    | .ok info =>
      if toFileMode info.mode &&& modeDir ≠ 0 then
        match openDirRes with
        | .error e => .error (convertErrE e)
        | .ok d => .ok ⟨path, some cfile, some d⟩
      else .ok ⟨path, some cfile, none⟩

/-! ## Claims -/

/-- C3: `convertErr` maps nil to nil; a remote not-found error maps to the
generic not-found error, and this rule wins even when the error text also
carries the `"ret=-17"` marker; otherwise a textual `"ret=-17"` marker maps
to the generic already-exists error; otherwise the error passes through
unchanged — the three rules applying in exactly that order. -/
theorem convertErr_translator :
    convertErr none = none ∧
    (∀ e : Err, errIs e .cephNotExist = true → convertErr (some e) = some .osNotExist) ∧
    (∀ e : Err, errIs e .cephNotExist = false →
      strContains (Err.msg e) "ret=-17" = true → convertErr (some e) = some .osExist) ∧
    (∀ e : Err, errIs e .cephNotExist = false →
      strContains (Err.msg e) "ret=-17" = false → convertErr (some e) = some e) := by
  refine ⟨rfl, ?_, ?_, ?_⟩
  · intro e h
    simp [convertErr, h]
  · intro e h1 h2
    simp [convertErr, h1, h2]
  · intro e h1 h2
    simp [convertErr, h1, h2]

/-- Witness for C3: one wrapped not-found error, one error carrying the
`"ret=-17"` marker, one unclassified error. -/
theorem convertErr_translator_witness :
    (errIs (Err.wrap "op failed: " .cephNotExist) .cephNotExist = true ∧
      convertErr (some (Err.wrap "op failed: " .cephNotExist)) = some .osNotExist) ∧
    (errIs (Err.other "cephfs: ret=-17") .cephNotExist = false ∧
      strContains (Err.msg (Err.other "cephfs: ret=-17")) "ret=-17" = true ∧
      convertErr (some (Err.other "cephfs: ret=-17")) = some .osExist) ∧
    (errIs (Err.other "remote disconnected") .cephNotExist = false ∧
      strContains (Err.msg (Err.other "remote disconnected")) "ret=-17" = false ∧
      convertErr (some (Err.other "remote disconnected")) =
        some (Err.other "remote disconnected")) :=
  ⟨⟨rfl, convertErr_translator.2.1 _ rfl⟩,
   ⟨rfl, rfl, convertErr_translator.2.2.1 _ rfl rfl⟩,
   ⟨rfl, rfl, convertErr_translator.2.2.2 _ rfl rfl⟩⟩

/-- C4: `File.Close` consults every populated capability even when the
first close fails; zero underlying failures yield nil, exactly one yields
that failure, and two yield the single combined error referencing both. -/
theorem close_aggregates_failures (p : String) (s t : List (Except Err DirEntryPlus))
    (e1 e2 : Err) :
    File.Close ⟨p, some ⟨some e1⟩, some ⟨s, some e2⟩⟩ = some (.close2 e1 e2) ∧
    File.Close ⟨p, some ⟨some e1⟩, some ⟨s, none⟩⟩ = some e1 ∧
    File.Close ⟨p, some ⟨none⟩, some ⟨s, some e2⟩⟩ = some e2 ∧
    File.Close ⟨p, some ⟨some e1⟩, none⟩ = some e1 ∧
    File.Close ⟨p, none, some ⟨s, some e2⟩⟩ = some e2 ∧
    File.Close ⟨p, some ⟨none⟩, some ⟨t, none⟩⟩ = none ∧
    File.Close ⟨p, some ⟨none⟩, none⟩ = none ∧
    File.Close ⟨p, none, some ⟨t, none⟩⟩ = none ∧
    File.Close ⟨p, none, none⟩ = none :=
  ⟨rfl, rfl, rfl, rfl, rfl, rfl, rfl, rfl, rfl⟩

/-- C6: on a handle whose file capability is nil, each of the nine file
operations fails with the fixed `ErrFileNil` error, for every possible
remote behaviour (the remote oracles are quantified and never reached). -/
theorem nil_file_guard (p : String) (d : Option DirCap)
    (r1 : FileCap → Nat × Option Err) (r2 : FileCap → Int → Nat × Option Err)
    (r3 : FileCap → List Nat → Nat × Option Err)
    (r4 : FileCap → List Nat → Int → Nat × Option Err)
    (r5 : FileCap → Int → Int → Int × Option Err)
    (r6 : FileCap → Except Err CephStatx)
    (r7 : FileCap → Option Err) (r8 : FileCap → Int → Option Err)
    (buf : List Nat) (off : Int) (whence : Int) (size : Int) (s : String) :
    File.Read ⟨p, none, d⟩ r1 = (0, some .fileNil) ∧
    File.ReadAt ⟨p, none, d⟩ r2 off = (0, some .fileNil) ∧
    File.Write ⟨p, none, d⟩ r3 buf = (0, some .fileNil) ∧
    File.WriteAt ⟨p, none, d⟩ r4 buf off = (0, some .fileNil) ∧
    File.Seek ⟨p, none, d⟩ r5 off whence = (0, some .fileNil) ∧
    File.Stat ⟨p, none, d⟩ r6 = .error .fileNil ∧
    File.Sync ⟨p, none, d⟩ r7 = some .fileNil ∧
    File.Truncate ⟨p, none, d⟩ r8 size = some .fileNil ∧
    File.WriteString ⟨p, none, d⟩ r3 s = (0, some .fileNil) :=
  ⟨rfl, rfl, rfl, rfl, rfl, rfl, rfl, rfl, rfl⟩

/-- C10: `Readdirnames` returns exactly the base names (`Name()`), in
order, of the metadata records `Readdir` returns on the same handle and
count, together with the identical error value, end-of-stream signal
included. -/
theorem readdirnames_refines_readdir (f : File) (n : Int) :
    File.Readdirnames f n =
      ((File.Readdir f n).1.map FileInfo.Name, (File.Readdir f n).2) := rfl

/-! ### Directory enumeration lemmas (towards C1 and C8) -/

/-- An entry that is neither `"."` nor `".."`. -/
def notPseudo (d : DirEntryPlus) : Bool := d.name != "." && d.name != ".."

theorem readdirLoop_zero (path : String) (s : List (Except Err DirEntryPlus))
    (acc : List FileInfo) : readdirLoop path s 0 acc = (acc, none) := by
  unfold readdirLoop
  simp

theorem readdirLoop_nil (path : String) (count : Int) (acc : List FileInfo)
    (h : count ≠ 0) :
    readdirLoop path [] count acc =
      (if count > 0 then (acc, some .eof) else (acc, none)) := by
  unfold readdirLoop
  rw [if_neg h]

theorem readdirLoop_cons_keep (path : String) (d : DirEntryPlus)
    (rest : List (Except Err DirEntryPlus)) (count : Int) (acc : List FileInfo)
    (h : count ≠ 0) (hn : d.name ≠ "." ∧ d.name ≠ "..") :
    readdirLoop path (Except.ok d :: rest) count acc =
      readdirLoop path rest (if count > 0 then count - 1 else count)
        (acc ++ [mkInfo path d]) := by
  conv_lhs => rw [readdirLoop]
  rw [if_neg h]
  rw [if_pos hn]

theorem readdirLoop_cons_skip (path : String) (d : DirEntryPlus)
    (rest : List (Except Err DirEntryPlus)) (count : Int) (acc : List FileInfo)
    (h : count ≠ 0) (hn : ¬(d.name ≠ "." ∧ d.name ≠ "..")) :
    readdirLoop path (Except.ok d :: rest) count acc =
      readdirLoop path rest count acc := by
  conv_lhs => rw [readdirLoop]
  rw [if_neg h]
  rw [if_neg hn]

theorem readdirLoop_err (path : String) (e : Err)
    (rest : List (Except Err DirEntryPlus)) (count : Int) (acc : List FileInfo)
    (h : count ≠ 0) :
    readdirLoop path (Except.error e :: rest) count acc =
      (acc, some (.wrap "cephfs: failed to list file: " e)) := by
  conv_lhs => rw [readdirLoop]
  rw [if_neg h]

/-- On an all-successful stream the loop returns, error-free, every
non-pseudo entry (unbounded count) or the first `count` of them (positive
count not exceeding their number), appended to the accumulator. -/
theorem readdirLoop_all_ok (path : String) (des : List DirEntryPlus) :
    ∀ (count : Int) (acc : List FileInfo),
      (count < 0 → readdirLoop path (des.map Except.ok) count acc =
        (acc ++ (des.filter notPseudo).map (mkInfo path), none)) ∧
      (0 < count → count ≤ ((des.filter notPseudo).length : Int) →
        readdirLoop path (des.map Except.ok) count acc =
        (acc ++ ((des.filter notPseudo).take count.toNat).map (mkInfo path), none)) := by
  induction des with
  | nil =>
    intro count acc
    refine ⟨?_, ?_⟩
    · intro hneg
      rw [List.map_nil, readdirLoop_nil path count acc (by omega),
        if_neg (show ¬count > 0 by omega)]
      simp
    · intro hpos hle
      simp only [List.filter_nil, List.length_nil, Nat.cast_zero] at hle
      omega
  | cons d ds ih =>
    intro count acc
    by_cases hp : notPseudo d = true
    · have hname : d.name ≠ "." ∧ d.name ≠ ".." := by
        simpa [notPseudo] using hp
      have hfil : (d :: ds).filter notPseudo = d :: ds.filter notPseudo := by
        simp [List.filter_cons, hp]
      refine ⟨?_, ?_⟩
      · intro hneg
        rw [List.map_cons,
          readdirLoop_cons_keep path d _ count acc (by omega) hname,
          if_neg (show ¬count > 0 by omega),
          (ih count (acc ++ [mkInfo path d])).1 hneg, hfil, List.map_cons]
        simp
      · intro hpos hle
        rw [hfil] at hle ⊢
        rw [List.map_cons,
          readdirLoop_cons_keep path d _ count acc (by omega) hname,
          if_pos (show count > 0 from hpos)]
        by_cases h1 : count = 1
        · subst h1
          rw [show (1 : Int) - 1 = 0 from rfl, readdirLoop_zero]
          simp
        · have h2 : 0 < count - 1 := by omega
          have h3 : count - 1 ≤ ((ds.filter notPseudo).length : Int) := by
            simp only [List.length_cons, Nat.cast_add, Nat.cast_one] at hle
            omega
          rw [(ih (count - 1) (acc ++ [mkInfo path d])).2 h2 h3]
          have h4 : count.toNat = (count - 1).toNat + 1 := by omega
          rw [h4, List.take_succ_cons, List.map_cons]
          simp
    · have hname : ¬(d.name ≠ "." ∧ d.name ≠ "..") := by
        simp only [notPseudo, Bool.and_eq_true, bne_iff_ne, ne_eq] at hp
        tauto
      have hfil : (d :: ds).filter notPseudo = ds.filter notPseudo := by
        simp only [List.filter_cons]
        rw [if_neg hp]
      refine ⟨?_, ?_⟩
      · intro hneg
        rw [List.map_cons,
          readdirLoop_cons_skip path d _ count acc (by omega) hname, hfil]
        exact (ih count acc).1 hneg
      · intro hpos hle
        rw [hfil] at hle
        rw [List.map_cons,
          readdirLoop_cons_skip path d _ count acc (by omega) hname, hfil]
        exact (ih count acc).2 hpos hle

theorem takeWhile_nonslash (l rest : List Char) (h : ∀ x ∈ l, (x == '/') = false) :
    (l ++ '/' :: rest).takeWhile (fun c => !(c == '/')) = l := by
  induction l with
  | nil => simp [List.takeWhile_cons]
  | cons c cs ih =>
    have hc : (c == '/') = false := h c (List.mem_cons_self c cs)
    simp only [List.cons_append, List.takeWhile_cons, hc, Bool.not_false, if_true]
    rw [ih (fun x hx => h x (List.mem_cons_of_mem c hx))]

/-- `filepath.Base (p ++ "/" ++ n) = n` whenever `n` is a nonempty,
slash-free entry name. -/
theorem filepathBase_append (p n : String) (h1 : n ≠ "")
    (h2 : ∀ c ∈ n.data, (c == '/') = false) :
    filepathBase (p ++ "/" ++ n) = n := by
  have hslash : (("/" : String)).data = ['/'] := rfl
  have hdata : (p ++ "/" ++ n).data = p.data ++ '/' :: n.data := by
    rw [String.data_append, String.data_append, hslash, List.append_assoc]
    rfl
  have hnd : n.data ≠ [] := by
    intro hh
    apply h1
    cases n with
    | mk d =>
      simp only at hh
      rw [hh]
  have hndr : n.data.reverse ≠ [] := by simpa using hnd
  obtain ⟨c, t, hct⟩ := List.exists_cons_of_ne_nil hndr
  have hrev : (p ++ "/" ++ n).data.reverse = n.data.reverse ++ '/' :: p.data.reverse := by
    rw [hdata, List.reverse_append, List.reverse_cons, List.append_assoc]
    rfl
  have hmemrev : ∀ x ∈ n.data.reverse, (x == '/') = false := by
    intro x hx
    exact h2 x (List.mem_reverse.mp hx)
  unfold filepathBase
  rw [if_neg ?hc1, if_neg ?hc2]
  case hc1 =>
    intro hh
    have := congrArg String.data hh
    rw [hdata] at this
    simp at this
  case hc2 =>
    intro hall
    rw [hdata, List.all_eq_true] at hall
    obtain ⟨c0, hc0⟩ := List.exists_mem_of_ne_nil n.data hnd
    have : (c0 == '/') = true := hall c0 (by simp [hc0])
    rw [h2 c0 hc0] at this
    exact Bool.false_ne_true this
  rw [hrev, hct]
  have hcfalse : (c == '/') = false := hmemrev c (by rw [hct]; exact List.mem_cons_self c t)
  rw [List.cons_append, List.dropWhile_cons, hcfalse]
  simp only [Bool.false_eq_true, if_false]
  simp only [List.takeWhile_cons, hcfalse, Bool.not_false, if_true]
  rw [takeWhile_nonslash t p.data.reverse
    (fun x hx => hmemrev x (by rw [hct]; exact List.mem_cons_of_mem c hx))]
  rw [← hct, List.reverse_reverse]

/-- C1: on a directory handle whose stream yields the raw entries `des`
without read errors, with `M` the number of entries other than `"."` and
`".."`: `Readdir k` with `0 < k ≤ M` returns exactly the first `k`
non-pseudo entries (so exactly `k` of them); `Readdir 0` and any negative
count return all `M`, error-free; the pseudo-entries are dropped before the
`FileInfo` transform runs and never count against the bound, so (for
well-formed entry names) no returned record is named `"."` or `".."`. -/
theorem readdir_count_semantics (path : String) (des : List DirEntryPlus)
    (fc : Option FileCap) (ce : Option Err) (k : Int) :
    (0 < k → k ≤ ((des.filter notPseudo).length : Int) →
      File.Readdir ⟨path, fc, some ⟨des.map Except.ok, ce⟩⟩ k =
        (((des.filter notPseudo).take k.toNat).map (mkInfo path), none) ∧
      (File.Readdir ⟨path, fc, some ⟨des.map Except.ok, ce⟩⟩ k).1.length = k.toNat) ∧
    (k ≤ 0 →
      File.Readdir ⟨path, fc, some ⟨des.map Except.ok, ce⟩⟩ k =
        ((des.filter notPseudo).map (mkInfo path), none)) ∧
    ((∀ d ∈ des, d.name ≠ "" ∧ ∀ c ∈ d.name.data, (c == '/') = false) →
      k ≤ ((des.filter notPseudo).length : Int) →
      ∀ fi ∈ (File.Readdir ⟨path, fc, some ⟨des.map Except.ok, ce⟩⟩ k).1,
        FileInfo.Name fi ≠ "." ∧ FileInfo.Name fi ≠ "..") := by
  have hRD : ∀ c : Int, File.Readdir ⟨path, fc, some ⟨des.map Except.ok, ce⟩⟩ c =
      readdirLoop path (des.map Except.ok) (if c = 0 then -1 else c) [] := fun c => rfl
  have hbounded : 0 < k → k ≤ ((des.filter notPseudo).length : Int) →
      File.Readdir ⟨path, fc, some ⟨des.map Except.ok, ce⟩⟩ k =
        (((des.filter notPseudo).take k.toNat).map (mkInfo path), none) := by
    intro hk hle
    rw [hRD k, if_neg (show ¬k = 0 by omega),
      (readdirLoop_all_ok path des k []).2 hk hle]
    simp
  have hunbounded : k ≤ 0 →
      File.Readdir ⟨path, fc, some ⟨des.map Except.ok, ce⟩⟩ k =
        ((des.filter notPseudo).map (mkInfo path), none) := by
    intro hk
    by_cases hk0 : k = 0
    · subst hk0
      rw [hRD 0, if_pos rfl, (readdirLoop_all_ok path des (-1) []).1 (by omega)]
      simp
    · rw [hRD k, if_neg hk0, (readdirLoop_all_ok path des k []).1 (by omega)]
      simp
  refine ⟨?_, hunbounded, ?_⟩
  · intro hk hle
    refine ⟨hbounded hk hle, ?_⟩
    rw [hbounded hk hle]
    simp only [List.length_map, List.length_take]
    omega
  · intro hwf hle fi hfi
    have hsub : ∃ d, d ∈ des.filter notPseudo ∧ fi = mkInfo path d := by
      by_cases hk : 0 < k
      · rw [hbounded hk hle] at hfi
        obtain ⟨d, hd, hdeq⟩ := List.mem_map.mp hfi
        exact ⟨d, List.mem_of_mem_take hd, hdeq.symm⟩
      · rw [hunbounded (by omega)] at hfi
        obtain ⟨d, hd, hdeq⟩ := List.mem_map.mp hfi
        exact ⟨d, hd, hdeq.symm⟩
    obtain ⟨d, hdfil, rfl⟩ := hsub
    have hdmem : d ∈ des := List.mem_of_mem_filter hdfil
    have hdps : notPseudo d = true := List.of_mem_filter hdfil
    have hwfd := hwf d hdmem
    have hbase : FileInfo.Name (mkInfo path d) = d.name :=
      filepathBase_append path d.name hwfd.1 hwfd.2
    rw [hbase]
    simpa [notPseudo] using hdps

/-- Sample directory entries for the C1 witness: two real children around
the `"."` and `".."` pseudo-entries. -/
def sampleEntries : List DirEntryPlus :=
  [⟨".", ⟨0x41ed, 0⟩⟩, ⟨"a", ⟨0x81a4, 5⟩⟩, ⟨"..", ⟨0x41ed, 0⟩⟩, ⟨"b", ⟨0x81a4, 7⟩⟩]

/-- Witness for C1: on the sample stream, `Readdir 1` returns exactly the
one entry `"a"`, and `Readdir 0` and `Readdir (-1)` return both real
entries with no error. -/
theorem readdir_count_semantics_witness :
    File.Readdir ⟨"p", none, some ⟨sampleEntries.map Except.ok, none⟩⟩ 1 =
      ([⟨⟨0x81a4, 5⟩, "p/a"⟩], none) ∧
    File.Readdir ⟨"p", none, some ⟨sampleEntries.map Except.ok, none⟩⟩ 0 =
      ([⟨⟨0x81a4, 5⟩, "p/a"⟩, ⟨⟨0x81a4, 7⟩, "p/b"⟩], none) ∧
    File.Readdir ⟨"p", none, some ⟨sampleEntries.map Except.ok, none⟩⟩ (-1) =
      ([⟨⟨0x81a4, 5⟩, "p/a"⟩, ⟨⟨0x81a4, 7⟩, "p/b"⟩], none) := by
  refine ⟨?_, ?_, ?_⟩
  · exact (((readdir_count_semantics "p" sampleEntries none none 1).1
      (by decide) (by decide)).1).trans (by decide)
  · exact ((readdir_count_semantics "p" sampleEntries none none 0).2.1
      (by decide)).trans (by decide)
  · exact ((readdir_count_semantics "p" sampleEntries none none (-1)).2.1
      (by decide)).trans (by decide)

/-- If the bound cannot run out before the stream position holding a read
error, the loop returns every non-pseudo entry before the error together
with the wrapped error — the partial list is preserved. -/
theorem readdirLoop_err_mid (path : String) (des : List DirEntryPlus)
    (e : Err) (tail : List (Except Err DirEntryPlus)) :
    ∀ (count : Int) (acc : List FileInfo),
      count ≠ 0 → (count < 0 ∨ ((des.filter notPseudo).length : Int) < count) →
      readdirLoop path (des.map Except.ok ++ Except.error e :: tail) count acc =
        (acc ++ (des.filter notPseudo).map (mkInfo path),
          some (.wrap "cephfs: failed to list file: " e)) := by
  induction des with
  | nil =>
    intro count acc h0 _
    rw [List.map_nil, List.nil_append, readdirLoop_err path e tail count acc h0]
    simp
  | cons d ds ih =>
    intro count acc h0 hbig
    by_cases hp : notPseudo d = true
    · have hname : d.name ≠ "." ∧ d.name ≠ ".." := by
        simpa [notPseudo] using hp
      have hfil : (d :: ds).filter notPseudo = d :: ds.filter notPseudo := by
        simp [List.filter_cons, hp]
      rw [hfil] at hbig
      rw [List.map_cons, List.cons_append,
        readdirLoop_cons_keep path d _ count acc h0 hname]
      have hnext0 : (if count > 0 then count - 1 else count) ≠ 0 := by
        simp only [List.length_cons, Nat.cast_add, Nat.cast_one] at hbig
        split_ifs <;> omega
      have hnextbig : (if count > 0 then count - 1 else count) < 0 ∨
          ((ds.filter notPseudo).length : Int) < (if count > 0 then count - 1 else count) := by
        simp only [List.length_cons, Nat.cast_add, Nat.cast_one] at hbig
        split_ifs <;> omega
      rw [ih _ (acc ++ [mkInfo path d]) hnext0 hnextbig, hfil, List.map_cons]
      simp
    · have hname : ¬(d.name ≠ "." ∧ d.name ≠ "..") := by
        simp only [notPseudo, Bool.and_eq_true, bne_iff_ne, ne_eq] at hp
        tauto
      have hfil : (d :: ds).filter notPseudo = ds.filter notPseudo := by
        simp only [List.filter_cons]
        rw [if_neg hp]
      rw [hfil] at hbig
      rw [List.map_cons, List.cons_append,
        readdirLoop_cons_skip path d _ count acc h0 hname, hfil]
      exact ih count acc h0 hbig

theorem listFromDirLoop_zero {T : Type} (cb : DirEntry → Except Err T)
    (s : List (Except Err DirEntry)) (acc : List T) :
    listFromDirLoop cb s 0 acc = (acc, none) := by
  unfold listFromDirLoop
  simp

/-- C8: during enumeration, an error aborts the loop at once and the
partially built list travels with the wrapped error.  Conjunct one: the
current `Readdir` returns every non-pseudo entry read before a mid-stream
read error, plus the wrapped error.  Conjuncts two and three: in the generic
`listFromDir` engine, a read error or a per-entry transform error aborts
immediately, returning the accumulator built so far with the wrapped
error. -/
theorem enumeration_error_aborts_loop (path : String) (des : List DirEntryPlus)
    (e : Err) (tail : List (Except Err DirEntryPlus)) (fc : Option FileCap)
    (ce : Option Err) (count : Int) {T : Type} (cb : DirEntry → Except Err T)
    (de2 : DirEntry) (tail2 : List (Except Err DirEntry)) (acc2 : List T) :
    ((count ≤ 0 ∨ ((des.filter notPseudo).length : Int) < count) →
      File.Readdir ⟨path, fc, some ⟨des.map Except.ok ++ Except.error e :: tail, ce⟩⟩ count =
        ((des.filter notPseudo).map (mkInfo path),
         some (.wrap "cephfs: failed to list file: " e))) ∧
    (count ≠ 0 →
      listFromDirLoop cb (Except.error e :: tail2) count acc2 =
        (acc2, some (.wrap "failed cephfs.ReadDir: " e))) ∧
    (count ≠ 0 → cb de2 = .error e →
      listFromDirLoop cb (Except.ok de2 :: tail2) count acc2 =
        (acc2, some (.wrap "listFromDir callback failed: " e))) := by
  refine ⟨?_, ?_, ?_⟩
  · intro hcond
    have hRD : File.Readdir ⟨path, fc, some ⟨des.map Except.ok ++ Except.error e :: tail, ce⟩⟩
        count = readdirLoop path (des.map Except.ok ++ Except.error e :: tail)
          (if count = 0 then -1 else count) [] := rfl
    by_cases hc0 : count = 0
    · subst hc0
      rw [hRD, if_pos rfl,
        readdirLoop_err_mid path des e tail (-1) [] (by omega) (by omega)]
      simp
    · rw [hRD, if_neg hc0,
        readdirLoop_err_mid path des e tail count [] hc0 (by omega)]
      simp
  · intro h0
    conv_lhs => rw [listFromDirLoop]
    rw [if_neg h0]
  · intro h0 hcb
    conv_lhs => rw [listFromDirLoop]
    rw [if_neg h0]
    rw [hcb]

/-- Witness for C8: a stream with one real entry, then one pseudo-entry,
then a read error, consumed unbounded; plus the generic engine aborting on
a read error and on a failing transform. -/
theorem enumeration_error_aborts_loop_witness :
    File.Readdir ⟨"p", none, some ⟨[Except.ok ⟨"a", ⟨0x81a4, 5⟩⟩,
        Except.ok ⟨".", ⟨0x41ed, 0⟩⟩,
        Except.error (Err.other "remote disconnected")], none⟩⟩ (-1) =
      ([⟨⟨0x81a4, 5⟩, "p/a"⟩],
        some (.wrap "cephfs: failed to list file: " (Err.other "remote disconnected"))) ∧
    listFromDirLoop (fun de => Except.ok de.name)
        [Except.error (Err.other "remote disconnected")] (-1) ["x"] =
      (["x"], some (.wrap "failed cephfs.ReadDir: " (Err.other "remote disconnected"))) ∧
    listFromDirLoop (fun _ => (Except.error (Err.other "remote disconnected") : Except Err String))
        [Except.ok ⟨"a", DType.reg⟩] (-1) ["x"] =
      (["x"], some (.wrap "listFromDir callback failed: " (Err.other "remote disconnected"))) := by
  refine ⟨?_, ?_, ?_⟩
  · exact ((enumeration_error_aborts_loop "p"
      [⟨"a", ⟨0x81a4, 5⟩⟩, ⟨".", ⟨0x41ed, 0⟩⟩] (Err.other "remote disconnected") [] none none
      (-1) (fun de => Except.ok de.name) ⟨"a", DType.reg⟩ [] ["x"]).1
      (by decide)).trans (by decide)
  · exact (enumeration_error_aborts_loop "p" [] (Err.other "remote disconnected") [] none
      none (-1) (fun de => Except.ok de.name) ⟨"a", DType.reg⟩ [] ["x"]).2.1 (by decide)
  · exact (enumeration_error_aborts_loop "p" [] (Err.other "remote disconnected") [] none
      none (-1) (fun _ => (Except.error (Err.other "remote disconnected") : Except Err String))
      ⟨"a", DType.reg⟩ [] ["x"]).2.2 (by decide) rfl

/-! ### Recursive-delete lemmas (towards C2 and C7) -/

theorem convertErr_eq_none (o : Option Err) (h : convertErr o = none) : o = none := by
  cases o with
  | none => rfl
  | some e =>
    rw [show convertErr (some e) =
      (if errIs e .cephNotExist then some Err.osNotExist
       else if strContains (Err.msg e) "ret=-17" then some Err.osExist
       else some e) from rfl] at h
    split_ifs at h

theorem findEntry_cons (k : String) (v : Node) (rest : List (String × Node))
    (name : String) :
    findEntry ((k, v) :: rest) name =
      if k = name then some v else findEntry rest name := rfl

theorem findEntry_removeEntry (cs : List (String × Node)) (name : String) :
    findEntry (removeEntry cs name) name = none := by
  induction cs with
  | nil => rfl
  | cons kv rest ih =>
    obtain ⟨k, v⟩ := kv
    by_cases hk : k = name
    · simp only [removeEntry, List.filter_cons, hk, bne_self_eq_false, Bool.false_eq_true,
        if_false]
      simpa [removeEntry] using ih
    · have hkb : (k != name) = true := by simp [hk]
      simp only [removeEntry, List.filter_cons, hkb, if_true]
      rw [findEntry_cons, if_neg hk]
      simpa [removeEntry] using ih

theorem findEntry_replaceEntry (cs : List (String × Node)) (name : String)
    (n child : Node) (h : findEntry cs name = some child) :
    findEntry (replaceEntry cs name n) name = some n := by
  induction cs with
  | nil => simp [findEntry] at h
  | cons kv rest ih =>
    obtain ⟨k, v⟩ := kv
    by_cases hk : k = name
    · simp only [replaceEntry, List.map_cons, if_pos hk]
      rw [findEntry_cons, if_pos hk]
    · rw [findEntry_cons, if_neg hk] at h
      simp only [replaceEntry, List.map_cons, if_neg hk]
      rw [findEntry_cons, if_neg hk]
      simpa [replaceEntry] using ih h

theorem lookup_unlink_self : ∀ (path : List String) (root root' : Node),
    unlinkNode root path = .ok root' → lookup root' path = none := by
  intro path
  induction path with
  | nil =>
    intro root root' h
    simp [unlinkNode] at h
  | cons name rest ih =>
    intro root root' h
    cases root with
    | file dt => simp [unlinkNode] at h
    | dir cs =>
      cases rest with
      | nil =>
        unfold unlinkNode at h
        cases hf : findEntry cs name with
        | none =>
          simp only [hf] at h
          exact Except.noConfusion h
        | some child =>
          simp only [hf] at h
          cases child with
          | dir g => simp at h
          | file dt =>
            simp only [Except.ok.injEq] at h
            rw [← h]
            unfold lookup
            rw [findEntry_removeEntry]
      | cons r rs =>
        unfold unlinkNode at h
        cases hf : findEntry cs name with
        | none =>
          simp only [hf] at h
          exact Except.noConfusion h
        | some child =>
          simp only [hf] at h
          cases hu : unlinkNode child (r :: rs) with
          | error e =>
            simp only [hu] at h
            exact Except.noConfusion h
          | ok child2 =>
            simp only [hu, Except.ok.injEq] at h
            rw [← h]
            unfold lookup
            rw [findEntry_replaceEntry cs name child2 child hf]
            exact ih child child2 hu

theorem lookup_removeDir_self : ∀ (path : List String) (root root' : Node),
    removeDirNode root path = .ok root' → lookup root' path = none := by
  intro path
  induction path with
  | nil =>
    intro root root' h
    simp [removeDirNode] at h
  | cons name rest ih =>
    intro root root' h
    cases root with
    | file dt => simp [removeDirNode] at h
    | dir cs =>
      cases rest with
      | nil =>
        unfold removeDirNode at h
        cases hf : findEntry cs name with
        | none =>
          simp only [hf] at h
          exact Except.noConfusion h
        | some child =>
          simp only [hf] at h
          cases child with
          | file dt => simp at h
          | dir g =>
            cases g with
            | nil =>
              simp only [Except.ok.injEq] at h
              rw [← h]
              unfold lookup
              rw [findEntry_removeEntry]
            | cons a b => simp at h
      | cons r rs =>
        unfold removeDirNode at h
        cases hf : findEntry cs name with
        | none =>
          simp only [hf] at h
          exact Except.noConfusion h
        | some child =>
          simp only [hf] at h
          cases hu : removeDirNode child (r :: rs) with
          | error e =>
            simp only [hu] at h
            exact Except.noConfusion h
          | ok child2 =>
            simp only [hu, Except.ok.injEq] at h
            rw [← h]
            unfold lookup
            rw [findEntry_replaceEntry cs name child2 child hf]
            exact ih child child2 hu

theorem fsStat_of_lookup_none (root : Node) (path : List String)
    (h : lookup root path = none) : fsStat root path = .error .osNotExist := by
  unfold fsStat statxNode
  rw [h]
  rfl

theorem lookup_none_of_fsStat (root : Node) (path : List String)
    (h : fsStat root path = .error .osNotExist) : lookup root path = none := by
  unfold fsStat statxNode at h
  cases hl : lookup root path with
  | none => rfl
  | some n => rw [hl] at h; simp at h

/-- Whatever happens inside, a `removeAll` call that reports success leaves
nothing at the target path: the successful exit paths are the not-found
fast path, a successful unlink, and a successful rmdir. -/
theorem removeAll_success_lookup (env : Env) :
    ∀ (fuel : Nat) (root : Node) (path : List String) (root' : Node),
    removeAll env fuel root path = (root', none) → lookup root' path = none := by
  intro fuel root path root' h
  match fuel with
  | 0 => simp [removeAll] at h
  | fuel + 1 =>
    unfold removeAll at h
    cases hstat : fsStat root path with
    | error e =>
      simp only [hstat] at h
      by_cases he : e = Err.osNotExist
      · rw [if_pos he] at h
        have hr : root = root' := congrArg Prod.fst h
        rw [← hr]
        exact lookup_none_of_fsStat root path (he ▸ hstat)
      · rw [if_neg he] at h
        have := congrArg Prod.snd h
        simp at this
    | ok target =>
      simp only [hstat] at h
      by_cases hdir : target.isDirNode = true
      · rw [if_neg (by simp [hdir])] at h
        cases hod : openDirEntries root path with
        | error e =>
          simp only [hod] at h
          have := congrArg Prod.snd h
          simp at this
        | ok entries =>
          simp only [hod] at h
          rcases hpc : processChildren env (removeAll env fuel) root path entries with
            ⟨root2, oe⟩
          simp only [hpc] at h
          cases oe with
          | some e =>
            have := congrArg Prod.snd h
            simp at this
          | none =>
            unfold mountRemoveDir at h
            cases hrf : env.rmdirFail path with
            | some e =>
              simp only [hrf] at h
              have := congrArg Prod.snd h
              simp at this
            | none =>
              simp only [hrf] at h
              cases hrd : removeDirNode root2 path with
              | error e =>
                simp only [hrd] at h
                have := congrArg Prod.snd h
                simp at this
              | ok r =>
                simp only [hrd] at h
                have hr : r = root' := congrArg Prod.fst h
                exact lookup_removeDir_self path root2 root' (hr ▸ hrd)
      · rw [if_pos (by simp [hdir])] at h
        rcases hrem : fsRemove env root path with ⟨root2, oe⟩
        simp only [hrem] at h
        cases oe with
        | some e =>
          have := congrArg Prod.snd h
          simp at this
        | none =>
          have hr : root2 = root' := congrArg Prod.fst h
          unfold fsRemove at hrem
          have hcv : convertErr (mountUnlink env root path).2 = none := by
            have := congrArg Prod.snd hrem
            simpa using this
          have hm2 : (mountUnlink env root path).2 = none := convertErr_eq_none _ hcv
          have hm1 : (mountUnlink env root path).1 = root2 := by
            have := congrArg Prod.fst hrem
            simpa using this
          unfold mountUnlink at hm1 hm2
          cases huf : env.unlinkFail path with
          | some e =>
            simp only [huf] at hm2
            exact Option.noConfusion hm2
          | none =>
            simp only [huf] at hm1 hm2
            cases hun : unlinkNode root path with
            | error e =>
              simp only [hun] at hm2
              exact Option.noConfusion hm2
            | ok r =>
              simp only [hun] at hm1
              rw [← hr, ← hm1]
              exact lookup_unlink_self path root r hun

/-- C7: a path whose stat reports not-found makes `RemoveAll` succeed
without performing any delete (the state is returned untouched);
consequently, after any successful `RemoveAll`, a second call on the same
path also succeeds and is a no-op. -/
theorem removeAll_idempotent (env : Env) (root root' : Node) (path : List String)
    (fuel fuel' : Nat) :
    (fsStat root path = .error .osNotExist →
      removeAll env (fuel + 1) root path = (root, none)) ∧
    (removeAll env (fuel + 1) root path = (root', none) →
      removeAll env (fuel' + 1) root' path = (root', none)) := by
  have fast : ∀ (st : Node) (fl : Nat), fsStat st path = .error .osNotExist →
      removeAll env (fl + 1) st path = (st, none) := by
    intro st fl hs
    unfold removeAll
    simp only [hs]
    simp
  constructor
  · exact fast root fuel
  · intro h
    exact fast root' fuel' (fsStat_of_lookup_none root' path
      (removeAll_success_lookup env (fuel + 1) root path root' h))

/-- A remote that injects no failures. -/
def envClean : Env := ⟨fun _ => none, fun _ => none⟩

/-- Witness for C7: `RemoveAll` of a missing path is a successful no-op,
and re-running `RemoveAll` after a successful delete succeeds again. -/
theorem removeAll_idempotent_witness :
    removeAll envClean 1 (Node.dir [("a", Node.file DType.reg)]) ["b"] =
      (Node.dir [("a", Node.file DType.reg)], none) ∧
    removeAll envClean 1 (Node.dir []) ["a"] = (Node.dir [], none) := by
  constructor
  · exact (removeAll_idempotent envClean (Node.dir [("a", Node.file DType.reg)])
      (Node.dir []) ["b"] 0 0).1 (by rfl)
  · exact (removeAll_idempotent envClean (Node.dir [("a", Node.file DType.reg)])
      (Node.dir []) ["a"] 0 0).2 (by rfl)

/-! ### The RemoveAll algorithm shape (towards C2) -/

theorem processChildren_pseudo (env : Env)
    (self : Node → List String → Node × Option Err) (root : Node)
    (path : List String) (de : DirEntry) (rest : List DirEntry)
    (h : de.name = "." ∨ de.name = "..") :
    processChildren env self root path (de :: rest) =
      processChildren env self root path rest := by
  conv_lhs => rw [processChildren]
  rw [if_pos h]

theorem processChildren_dirchild (env : Env)
    (self : Node → List String → Node × Option Err) (root : Node)
    (path : List String) (de : DirEntry) (rest : List DirEntry)
    (h : ¬(de.name = "." ∨ de.name = "..")) (hd : de.dtype = DType.dir) :
    processChildren env self root path (de :: rest) =
      (match self root (path ++ [de.name]) with
       | (root2, some e) => (root2, some (.wrap "DirEntry callback failed: " e))
       | (root2, none) => processChildren env self root2 path rest) := by
  conv_lhs => rw [processChildren]
  rw [if_neg h, hd]

theorem processChildren_filechild (env : Env)
    (self : Node → List String → Node × Option Err) (root : Node)
    (path : List String) (de : DirEntry) (rest : List DirEntry)
    (h : ¬(de.name = "." ∨ de.name = ".."))
    (hd : de.dtype = DType.lnk ∨ de.dtype = DType.reg) :
    processChildren env self root path (de :: rest) =
      (match mountUnlink env root (path ++ [de.name]) with
       | (root2, some e) => (root2, some (.wrap "DirEntry callback failed: "
           (.wrap ("failed to remove file " ++ joinPath (path ++ [de.name]) ++ ": ") e)))
       | (root2, none) => processChildren env self root2 path rest) := by
  conv_lhs => rw [processChildren]
  rw [if_neg h]
  rcases hd with hd | hd <;> rw [hd]

theorem processChildren_otherchild (env : Env)
    (self : Node → List String → Node × Option Err) (root : Node)
    (path : List String) (de : DirEntry) (rest : List DirEntry)
    (h : ¬(de.name = "." ∨ de.name = "..")) (h1 : de.dtype ≠ DType.dir)
    (h2 : de.dtype ≠ DType.lnk) (h3 : de.dtype ≠ DType.reg) :
    processChildren env self root path (de :: rest) =
      (match mountUnlink env root (path ++ [de.name]) with
       | (root2, some e) => (root2, some (.wrap "DirEntry callback failed: "
           (.wrap "failed to remove unknown entry: " e)))
       | (root2, none) => processChildren env self root2 path rest) := by
  conv_lhs => rw [processChildren]
  rw [if_neg h]
  cases hdt : de.dtype <;> first
    | rfl
    | exact absurd hdt h1
    | exact absurd hdt h2
    | exact absurd hdt h3

/-- The `forDirItem` callback never acts on `"."` or `".."`: processing a
child list is processing its pseudo-free filtrate. -/
theorem processChildren_skips_pseudo (env : Env)
    (self : Node → List String → Node × Option Err) (path : List String) :
    ∀ (entries : List DirEntry) (st : Node),
      processChildren env self st path entries =
        processChildren env self st path
          (entries.filter (fun de => de.name != "." && de.name != "..")) := by
  intro entries
  induction entries with
  | nil => intro st; rfl
  | cons de rest ih =>
    intro st
    by_cases hp : de.name = "." ∨ de.name = ".."
    · have hfalse : (de.name != "." && de.name != "..") = false := by
        rcases hp with h | h <;> simp [h]
      rw [processChildren_pseudo env self st path de rest hp,
        List.filter_cons, hfalse]
      simp only [Bool.false_eq_true, if_false]
      exact ih st
    · have htrue : (de.name != "." && de.name != "..") = true := by
        simp only [not_or] at hp
        simp [hp.1, hp.2]
      rw [List.filter_cons, htrue]
      simp only [if_true]
      cases hdt : de.dtype with
      | dir =>
        rw [processChildren_dirchild env self st path de rest hp hdt,
          processChildren_dirchild env self st path de _ hp hdt]
        rcases self st (path ++ [de.name]) with ⟨st2, oe⟩
        cases oe with
        | none => exact ih st2
        | some e => rfl
      | lnk =>
        rw [processChildren_filechild env self st path de rest hp (Or.inl hdt),
          processChildren_filechild env self st path de _ hp (Or.inl hdt)]
        rcases mountUnlink env st (path ++ [de.name]) with ⟨st2, oe⟩
        cases oe with
        | none => exact ih st2
        | some e => rfl
      | reg =>
        rw [processChildren_filechild env self st path de rest hp (Or.inr hdt),
          processChildren_filechild env self st path de _ hp (Or.inr hdt)]
        rcases mountUnlink env st (path ++ [de.name]) with ⟨st2, oe⟩
        cases oe with
        | none => exact ih st2
        | some e => rfl
      | blk =>
        rw [processChildren_otherchild env self st path de rest hp
            (by simp [hdt]) (by simp [hdt]) (by simp [hdt]),
          processChildren_otherchild env self st path de _ hp
            (by simp [hdt]) (by simp [hdt]) (by simp [hdt])]
        rcases mountUnlink env st (path ++ [de.name]) with ⟨st2, oe⟩
        cases oe with
        | none => exact ih st2
        | some e => rfl
      | chr =>
        rw [processChildren_otherchild env self st path de rest hp
            (by simp [hdt]) (by simp [hdt]) (by simp [hdt]),
          processChildren_otherchild env self st path de _ hp
            (by simp [hdt]) (by simp [hdt]) (by simp [hdt])]
        rcases mountUnlink env st (path ++ [de.name]) with ⟨st2, oe⟩
        cases oe with
        | none => exact ih st2
        | some e => rfl
      | fifo =>
        rw [processChildren_otherchild env self st path de rest hp
            (by simp [hdt]) (by simp [hdt]) (by simp [hdt]),
          processChildren_otherchild env self st path de _ hp
            (by simp [hdt]) (by simp [hdt]) (by simp [hdt])]
        rcases mountUnlink env st (path ++ [de.name]) with ⟨st2, oe⟩
        cases oe with
        | none => exact ih st2
        | some e => rfl
      | sock =>
        rw [processChildren_otherchild env self st path de rest hp
            (by simp [hdt]) (by simp [hdt]) (by simp [hdt]),
          processChildren_otherchild env self st path de _ hp
            (by simp [hdt]) (by simp [hdt]) (by simp [hdt])]
        rcases mountUnlink env st (path ++ [de.name]) with ⟨st2, oe⟩
        cases oe with
        | none => exact ih st2
        | some e => rfl
      | unknown =>
        rw [processChildren_otherchild env self st path de rest hp
            (by simp [hdt]) (by simp [hdt]) (by simp [hdt]),
          processChildren_otherchild env self st path de _ hp
            (by simp [hdt]) (by simp [hdt]) (by simp [hdt])]
        rcases mountUnlink env st (path ++ [de.name]) with ⟨st2, oe⟩
        cases oe with
        | none => exact ih st2
        | some e => rfl

/-- C2: `RemoveAll` follows the specified algorithm.  (1) a not-found stat
is a successful no-op; (2) a non-directory target is removed directly via
`Fs.Remove`; (3) a directory target has every child processed first and
only then is the emptied directory itself removed; (4) the `forDirItem`
callback skips the `"."` and `".."` pseudo-entries; (5) any child-processing
failure makes the whole call return that error; (6) children dispatch on
their dirent type: directories recurse into `RemoveAll`, symlinks and
regular files are unlinked directly, and every other type is unlinked via
the same fallback. -/
theorem removeAll_algorithm (env : Env) (root : Node) (path : List String)
    (fuel : Nat) :
    (fsStat root path = .error .osNotExist →
      removeAll env (fuel + 1) root path = (root, none)) ∧
    (∀ target, fsStat root path = .ok target → target.isDirNode = false →
      removeAll env (fuel + 1) root path =
        (match fsRemove env root path with
         | (root2, some e) => (root2, some (.wrap ("RemoveAll failed to remove file at path "
             ++ joinPath path ++ ": ") e))
         | (root2, none) => (root2, none))) ∧
    (∀ target entries, fsStat root path = .ok target → target.isDirNode = true →
      openDirEntries root path = .ok entries →
      removeAll env (fuel + 1) root path =
        (match processChildren env (removeAll env fuel) root path entries with
         | (root2, some e) => (root2, some e)
         | (root2, none) => mountRemoveDir env root2 path)) ∧
    (∀ (self : Node → List String → Node × Option Err) (st : Node)
      (entries : List DirEntry),
      processChildren env self st path entries =
        processChildren env self st path
          (entries.filter (fun de => de.name != "." && de.name != ".."))) ∧
    (∀ target entries root2 e, fsStat root path = .ok target →
      target.isDirNode = true → openDirEntries root path = .ok entries →
      processChildren env (removeAll env fuel) root path entries = (root2, some e) →
      removeAll env (fuel + 1) root path = (root2, some e)) ∧
    (∀ (self : Node → List String → Node × Option Err) (st : Node)
      (de : DirEntry) (rest : List DirEntry), ¬(de.name = "." ∨ de.name = "..") →
      (de.dtype = DType.dir →
        processChildren env self st path (de :: rest) =
          (match self st (path ++ [de.name]) with
           | (root2, some e) => (root2, some (.wrap "DirEntry callback failed: " e))
           | (root2, none) => processChildren env self root2 path rest)) ∧
      (de.dtype = DType.lnk ∨ de.dtype = DType.reg →
        processChildren env self st path (de :: rest) =
          (match mountUnlink env st (path ++ [de.name]) with
           | (root2, some e) => (root2, some (.wrap "DirEntry callback failed: "
               (.wrap ("failed to remove file " ++ joinPath (path ++ [de.name]) ++ ": ") e)))
           | (root2, none) => processChildren env self root2 path rest)) ∧
      (de.dtype ≠ DType.dir → de.dtype ≠ DType.lnk → de.dtype ≠ DType.reg →
        processChildren env self st path (de :: rest) =
          (match mountUnlink env st (path ++ [de.name]) with
           | (root2, some e) => (root2, some (.wrap "DirEntry callback failed: "
               (.wrap "failed to remove unknown entry: " e)))
           | (root2, none) => processChildren env self root2 path rest))) := by
  refine ⟨?_, ?_, ?_, ?_, ?_, ?_⟩
  · intro h
    unfold removeAll
    simp only [h]
    simp
  · intro target h hdir
    unfold removeAll
    simp only [h]
    rw [if_pos (by simp [hdir])]
  · intro target entries h hdir hod
    unfold removeAll
    simp only [h, hod]
    rw [if_neg (by simp [hdir])]
  · intro self st entries
    exact processChildren_skips_pseudo env self path entries st
  · intro target entries root2 e h hdir hod hpc
    unfold removeAll
    simp only [h, hod, hpc]
    rw [if_neg (by simp [hdir])]
  · intro self st de rest hps
    exact ⟨fun hd => processChildren_dirchild env self st path de rest hps hd,
      fun hd => processChildren_filechild env self st path de rest hps hd,
      fun h1 h2 h3 => processChildren_otherchild env self st path de rest hps h1 h2 h3⟩

/-- A remote that fails the unlink of `d/x` (modelling, e.g., a permission
error) and nothing else. -/
def envBad : Env :=
  ⟨fun p => if p = ["d", "x"] then some (Err.other "EPERM") else none,
   fun _ => none⟩

/-- Witness for C2, exercising every branch at concrete inputs: the
not-found no-op, the direct file unlink, the directory recursion with final
rmdir, abort-and-propagate on a failing child unlink, and the pseudo-entry
skipping/dispatch of the callback. -/
theorem removeAll_algorithm_witness :
    removeAll envClean 1 (Node.dir []) ["missing"] = (Node.dir [], none) ∧
    removeAll envClean 1 (Node.dir [("f", Node.file DType.reg)]) ["f"] =
      (Node.dir [], none) ∧
    removeAll envClean 2 (Node.dir [("d", Node.dir [])]) ["d"] =
      (Node.dir [], none) ∧
    removeAll envBad 2 (Node.dir [("d", Node.dir [("x", Node.file DType.reg)])]) ["d"] =
      (Node.dir [("d", Node.dir [("x", Node.file DType.reg)])],
        some (.wrap "DirEntry callback failed: "
          (.wrap "failed to remove file d/x: " (Err.other "EPERM")))) ∧
    processChildren envClean (removeAll envClean 0) (Node.dir []) ["d"]
      [⟨".", DType.dir⟩, ⟨"..", DType.dir⟩] = (Node.dir [], none) ∧
    processChildren envClean (fun st _ => (st, none)) (Node.dir []) ["d"]
      [⟨"c", DType.dir⟩] = (Node.dir [], none) := by
  refine ⟨?_, ?_, ?_, ?_, ?_, ?_⟩
  · exact (removeAll_algorithm envClean (Node.dir []) ["missing"] 0).1 (by rfl)
  · exact ((removeAll_algorithm envClean (Node.dir [("f", Node.file DType.reg)])
      ["f"] 0).2.1 (Node.file DType.reg) (by rfl) (by rfl)).trans (by rfl)
  · exact ((removeAll_algorithm envClean (Node.dir [("d", Node.dir [])])
      ["d"] 1).2.2.1 (Node.dir []) [⟨".", DType.dir⟩, ⟨"..", DType.dir⟩]
      (by rfl) (by rfl) (by rfl)).trans (by rfl)
  · exact (removeAll_algorithm envBad
      (Node.dir [("d", Node.dir [("x", Node.file DType.reg)])]) ["d"] 1).2.2.2.2.1
      (Node.dir [("x", Node.file DType.reg)])
      [⟨".", DType.dir⟩, ⟨"..", DType.dir⟩, ⟨"x", DType.reg⟩]
      (Node.dir [("d", Node.dir [("x", Node.file DType.reg)])])
      (.wrap "DirEntry callback failed: "
        (.wrap "failed to remove file d/x: " (Err.other "EPERM")))
      (by rfl) (by rfl) (by rfl) (by rfl)
  · exact ((removeAll_algorithm envClean (Node.dir []) ["d"] 0).2.2.2.1
      (removeAll envClean 0) (Node.dir [])
      [⟨".", DType.dir⟩, ⟨"..", DType.dir⟩]).trans (by rfl)
  · exact (((removeAll_algorithm envClean (Node.dir []) ["d"] 0).2.2.2.2.2
      (fun st _ => (st, none)) (Node.dir []) ⟨"c", DType.dir⟩ []
      (by decide)).1 (by rfl)).trans (by rfl)

/-- C9 counterexample: `Fs.Rename` returns the remote error unchanged, so an
error the translator would classify (its text contains `"ret=-17"`) reaches
the caller untranslated — not every error returned by the adapter passes
through `convertErr`. -/
theorem rename_skips_translator :
    fsRename (some (Err.other "cephfs: ret=-17")) ≠
      convertErr (some (Err.other "cephfs: ret=-17")) := by decide

/-- C9 (amended): `Remove`, `Mkdir`, and the open step of `OpenFile` route
their remote errors through the error translator, while `Create`,
`MkdirAll`, `Rename`, `Chmod`, and `Chown` return the remote error to the
caller unchanged, bypassing the translator. -/
theorem fs_error_routing :
    (∀ res, fsRemoveO res = convertErr res) ∧
    (∀ path e, fsMkdir path (some e) =
      some (.wrap ("failed to create directory " ++ path ++ ": ") (convertErrE e))) ∧
    (∀ path, fsMkdir path none = none) ∧
    (∀ path e s d, fsOpenFile path (.error e) s d = .error (convertErrE e)) ∧
    (∀ res, fsRename res = res) ∧
    (∀ res, fsMkdirAll res = res) ∧
    (∀ res, fsChmod res = res) ∧
    (∀ res, fsChown res = res) ∧
    (∀ path e, fsCreate path (.error e) = .error e) :=
  ⟨fun _ => rfl, fun _ _ => rfl, fun _ => rfl, fun _ _ _ _ => rfl, fun _ => rfl,
   fun _ => rfl, fun _ => rfl, fun _ => rfl, fun _ _ => rfl⟩
